import Mathlib

/-!
# Verification of the rusty-daw-engine plug-in host core

A shallow embedding of the plug-in host state machine, the audio-thread
process loop, the parameter setters and the graph compiler's
delay-compensation cache, translated from the Rust sources
(`src/graph/plugin_host.rs`, `src/graph/compiler.rs`,
`src/graph/compiler/delay_comp_task.rs`, `src/plugin_host/main_thread.rs`),
together with theorems settling the specification claims.

Machine floats (`f64`) are embedded as rationals `ℚ`; the only floating
operations the embedded code performs (`round`, `clamp`, comparisons) agree
with the rational model on all inputs considered here.
-/

namespace RustyDaw

/-- The 8-valued atomic plug-in state word, from `PluginState` in
`src/graph/plugin_host.rs`. -/
inductive PluginState where
  | Inactive
  | InactiveWithError
  | ActiveAndSleeping
  | ActiveAndProcessing
  | ActiveAndWaitingForQuiet
  | ActiveWithError
  | WaitingToDrop
  | DroppedAndReadyToDeactivate
  deriving DecidableEq, Repr

/-- `PluginState::is_active`: everything except the two inactive states,
`WaitingToDrop` and `DroppedAndReadyToDeactivate`. -/
def PluginState.is_active : PluginState → Bool
  | .Inactive => false
  | .InactiveWithError => false
  | .WaitingToDrop => false
  | .DroppedAndReadyToDeactivate => false
  | _ => true

/-- `PluginState::is_processing`. -/
def PluginState.is_processing : PluginState → Bool
  | .ActiveAndProcessing => true
  | .ActiveAndWaitingForQuiet => true
  | _ => false

/-- `PluginState::is_sleeping`. -/
def PluginState.is_sleeping (s : PluginState) : Bool :=
  s = PluginState.ActiveAndSleeping

/-- `ParamGestureInfo` from `src/graph/plugin_host.rs`. -/
structure ParamGestureInfo where
  is_begin : Bool
  deriving DecidableEq, Repr

/-- `AudioToMainParamValue`: one coalesced slot of the audio→main reducing
parameter queue. -/
structure AudioToMainParamValue where
  value : Option ℚ
  gesture : Option ParamGestureInfo
  deriving DecidableEq, Repr

/-- `AudioToMainParamValue::update` (the `ReducFnvValue` coalescing rule):
each field of `self` is overwritten only when the corresponding field of
`new_value` is `Some`. The Rust method mutates `self`; here it returns the
updated slot. -/
def AudioToMainParamValue.update (old new_value : AudioToMainParamValue) :
    AudioToMainParamValue :=
  let v := if new_value.value.isSome then new_value.value else old.value
  let g := if new_value.gesture.isSome then new_value.gesture else old.gesture
  { value := v, gesture := g }

/-! ## Main-thread parameter setters (`src/plugin_host/main_thread.rs`) -/

/-- The per-parameter registry entry. In the source, `ParamInfo` comes from
the external `dropseed_plugin_api` crate; the fields used by the setters are
the stable id, the `IS_READONLY` and `IS_MODULATABLE` flag bits, and the
value range. -/
structure ParamInfo where
  stable_id : ℕ
  is_readonly : Bool
  is_modulatable : Bool
  min_value : ℚ
  max_value : ℚ
  deriving DecidableEq, Repr

/-- `SetParamValueError` from `src/plugin_host/error.rs` (the variants used
by the two setters). -/
inductive SetParamValueError where
  | ParamDoesNotExist (id : ℕ)
  | ParamIsReadOnly (id : ℕ)
  | ParamIsNotModulatable (id : ℕ)
  deriving DecidableEq, Repr

/-- The slice of `PluginHostMainThread` state that the parameter setters
read and write: the registry `params`, whether `channel.param_queues` is
`Some`, and the `save_state_dirty` flag. -/
structure ParamHostCtx where
  params : List (ℕ × ParamInfo)
  queues_present : Bool
  save_state_dirty : Bool
  deriving DecidableEq, Repr

/-- First-match association-list lookup (the embedding of `FnvHashMap::get`;
hash maps keep keys unique, so first match is the match). -/
def lookupKey {κ α : Type} [DecidableEq κ] (m : List (κ × α)) (k : κ) : Option α :=
  (m.find? (fun p => p.1 = k)).map (·.2)

/-- Rust `f64::clamp(lo, hi)` on the rational model (for `lo ≤ hi`). -/
def rustClamp (v lo hi : ℚ) : ℚ :=
  if v < lo then lo else if v > hi then hi else v

/-- The outcome of a successful setter call: the value returned to the
caller, the new `save_state_dirty` flag, and the `(id, value)` pair pushed
to the UI→audio queue, if any. -/
structure SetParamOk where
  returned : ℚ
  dirty_after : Bool
  enqueued : Option (ℕ × ℚ)
  deriving DecidableEq, Repr

/-- `PluginHostMainThread::set_param_value`: unknown id fails with
`ParamDoesNotExist`; a read-only parameter fails with `ParamIsReadOnly`;
otherwise the value is clamped to `[min_value, max_value]`, enqueued to the
UI→audio value queue when the queues exist, `save_state_dirty` is set, and
the clamped value is returned. -/
def set_param_value (ctx : ParamHostCtx) (param_id : ℕ) (value : ℚ) :
    Except SetParamValueError SetParamOk :=
  match lookupKey ctx.params param_id with
  | some param_info =>
    if param_info.is_readonly then
      .error (.ParamIsReadOnly param_id)
    else
      let value := rustClamp value param_info.min_value param_info.max_value
      .ok { returned := value
            dirty_after := true
            enqueued := if ctx.queues_present then some (param_id, value) else none }
  | none => .error (.ParamDoesNotExist param_id)

/-- `PluginHostMainThread::set_param_mod_amount`, translated exactly as
written: the error `ParamIsNotModulatable` is returned when
`param_info.flags.contains(ParamInfoFlags::IS_MODULATABLE)` holds, i.e.
when the flag IS set; otherwise the unclamped amount is enqueued (when the
queues exist) and returned. `save_state_dirty` is left unchanged. -/
def set_param_mod_amount (ctx : ParamHostCtx) (param_id : ℕ) (mod_amount : ℚ) :
    Except SetParamValueError SetParamOk :=
  match lookupKey ctx.params param_id with
  | some param_info =>
    if param_info.is_modulatable then
      .error (.ParamIsNotModulatable param_id)
    else
      .ok { returned := mod_amount
            dirty_after := ctx.save_state_dirty
            enqueued := if ctx.queues_present then some (param_id, mod_amount) else none }
  | none => .error (.ParamDoesNotExist param_id)

/-! ## Activation precheck (`src/graph/plugin_host.rs`) -/

/-- `ActivatePluginError` (error payloads reduced to the data the claims
mention). -/
inductive ActivatePluginError where
  | NotLoaded
  | AlreadyActive
  | RestartScheduled
  | PluginFailedToGetAudioPortsExt (e : String)
  | PluginFailedToGetNotePortsExt (e : String)
  | PluginFailedToGetParamInfo (i : ℕ)
  | PluginFailedToGetParamValue (id : ℕ)
  | PluginSpecific (e : String)
  deriving DecidableEq, Repr

/-- `PluginInstanceHost::can_activate`: `NotLoaded` when no main-thread
plugin is loaded, `AlreadyActive` when the state word satisfies
`is_active`, `RestartScheduled` when the `RESTART` request flag is loaded,
otherwise `Ok(())`. -/
def can_activate (main_thread_loaded : Bool) (state : PluginState)
    (restart_requested : Bool) : Except ActivatePluginError Unit :=
  if !main_thread_loaded then .error .NotLoaded
  else if state.is_active then .error .AlreadyActive
  else if restart_requested then .error .RestartScheduled
  else .ok ()

/-- The plug-in-side outcomes that `PluginInstanceHost::activate` consumes
after its precheck: the four fallible calls into the main-thread plug-in
capability (`audio_ports_ext`, `note_ports_ext`, the parameter
info/value scan, and `activate`). -/
structure ActivateOracle where
  audio_ports : Except String Unit
  note_ports : Except String Unit
  param_scan : Except ActivatePluginError Unit
  plugin_activate : Except String Unit

/-- `PluginInstanceHost::activate`, reduced to its effect on the state word:
the precheck failures propagate with the state word untouched; any later
plug-in failure sets `InactiveWithError`; success sets `ActiveAndSleeping`.
Returns the result paired with the state word after the call. -/
def activate (main_thread_loaded : Bool) (state : PluginState)
    (restart_requested : Bool) (o : ActivateOracle) :
    Except ActivatePluginError Unit × PluginState :=
  match can_activate main_thread_loaded state restart_requested with
  | .error e => (.error e, state)
  | .ok _ =>
    match o.audio_ports with
    | .error e => (.error (.PluginFailedToGetAudioPortsExt e), .InactiveWithError)
    | .ok _ =>
      match o.note_ports with
      | .error e => (.error (.PluginFailedToGetNotePortsExt e), .InactiveWithError)
      | .ok _ =>
        match o.param_scan with
        | .error e => (.error e, .InactiveWithError)
        | .ok _ =>
          match o.plugin_activate with
          | .error e => (.error (.PluginSpecific e), .InactiveWithError)
          | .ok _ => (.ok (), .ActiveAndSleeping)

/-! ## The audio-thread process loop (`PluginInstanceHostAudioThread::process`) -/

/-- The two request-flag bits the audio-thread `process` function reads
(`RequestFlags::DEACTIVATE` and `RequestFlags::PROCESS`). -/
structure RequestFlags where
  deactivate : Bool
  process : Bool
  deriving DecidableEq, Repr

/-- The kinds of events found in a note-in buffer. `process` forwards only
the seven note kinds (`NoteOn`, `NoteOff`, `NoteChoke`, `NoteEnd`,
`NoteExpression`, `Midi`, `Midi2`); anything else is dropped
(`_ => do_add = false`). -/
inductive NoteInEvent where
  | noteOn
  | noteOff
  | noteChoke
  | noteEnd
  | noteExpression
  | midi
  | midi2
  | otherKind
  deriving DecidableEq, Repr

/-- Whether draining this event sets `has_note_in_event`. -/
def NoteInEvent.isNoteKind : NoteInEvent → Bool
  | .otherKind => false
  | _ => true

/-- The kinds of events found in an event-in buffer. `ParamValue` and
`ParamMod` carry an optional target-plugin node reference. -/
inductive EventInEvent where
  | paramValue (target : Option ℕ)
  | paramMod (target : Option ℕ)
  | transport
  | otherKind
  deriving DecidableEq, Repr

/-- Whether the event-in event is forwarded as a parameter event for this
plug-in (a `ParamValue`/`ParamMod` whose embedded `target_plugin` equals
`self.id.node_ref`). -/
def EventInEvent.isParamFor (self_id : ℕ) : EventInEvent → Bool
  | .paramValue (some t) => t = self_id
  | .paramMod (some t) => t = self_id
  | _ => false

/-- The `ProcessStatus` returned by the plug-in's `process` call. -/
inductive ProcessStatus where
  | Continue
  | ContinueIfNotQuiet
  | Tail
  | Sleep
  | Error
  deriving DecidableEq, Repr

/-- The events the plug-in puts in `out_events` during `process`, reduced to
the fields the routing step reads. -/
inductive OutEvent where
  | paramGestureBegin (param_id : ℕ)
  | paramGestureEnd (param_id : ℕ)
  | paramValue (param_id : ℕ) (v : ℚ)
  | paramMod
  | transport
  | noteOn (port_index : ℕ)
  | noteOff (port_index : ℕ)
  | noteEnd (port_index : ℕ)
  | noteChoke (port_index : ℕ)
  | noteExpression (port_index : ℕ)
  | midi (port_index : ℕ)
  | midi2 (port_index : ℕ)
  | otherKind
  deriving DecidableEq, Repr

/-- The calls `process` makes into the `AudioThreadPlugin` capability, in
order. -/
inductive PluginCall where
  | stopProcessing
  | startProcessing
  | processCall
  | paramFlush
  deriving DecidableEq, Repr

/-- One block's inputs to `process`, seen from the embedding: the contents
of the queues and buffers it drains, the silence oracles on the audio
buffers, and the plug-in's behaviour during this block. -/
structure ProcEnv where
  /-- `self.id.node_ref`. -/
  self_id : ℕ
  /-- Whether `self.param_queues` is `Some` (the plug-in was activated with
  at least one parameter). -/
  has_param_queues : Bool
  /-- The coalesced `(id, value)` pairs drained from the UI→audio value
  queue this block. -/
  drained_param_values : List (ℕ × ℚ)
  /-- The coalesced `(id, value)` pairs drained from the UI→audio mod
  queue this block. -/
  drained_param_mods : List (ℕ × ℚ)
  /-- The contents of the note-in buffers, one list per buffer (the
  flattening of `note_in_buffers`). -/
  note_in_buffers : List (List NoteInEvent)
  /-- The contents of the event-in buffers. -/
  event_in_buffers : List (List EventInEvent)
  /-- Whether `event_out_buffer` is `Some`. -/
  has_event_out_buffer : Bool
  /-- Which entries of `note_out_buffers` are `Some`. -/
  note_out_ports : List Bool
  /-- `buffers.audio_inputs_silent(proc_info.frames)`. -/
  audio_inputs_silent : Bool
  /-- `buffers.audio_outputs_silent(proc_info.frames)`. -/
  audio_outputs_silent : Bool
  /-- Whether `self.plugin.start_processing()` returns `Ok` this block. -/
  start_processing_ok : Bool
  /-- The status the plug-in's `process` call returns this block. -/
  process_status : ProcessStatus
  /-- The events the plug-in's `process` call pushes to `out_events`. -/
  process_out_events : List OutEvent

/-- `has_note_in_event` after the note-in drain: some note-in buffer held a
note-kind event. -/
def hasNoteInEvent (env : ProcEnv) : Bool :=
  env.note_in_buffers.any (fun b => b.any NoteInEvent.isNoteKind)

/-- `has_param_in_event` after the drains: the UI→audio queues (when they
exist) yielded a value or mod, or an event-in buffer held a
`ParamValue`/`ParamMod` targeted at this plug-in. -/
def hasParamInEvent (env : ProcEnv) : Bool :=
  (env.has_param_queues &&
    (!env.drained_param_values.isEmpty || !env.drained_param_mods.isEmpty)) ||
  env.event_in_buffers.any (fun b => b.any (EventInEvent.isParamFor env.self_id))

/-- The accumulator of the out-event routing loop: the
`is_adjusting_parameter` map (total with default `false`, like
`entry(..).or_insert(false)`), the sequence of `set_or_update` calls made
on the audio→main queue, and the events pushed to the event-out and
note-out buffers. -/
structure RouteAcc where
  adj : ℕ → Bool
  audio_to_main : List (ℕ × AudioToMainParamValue)
  event_out : List OutEvent
  note_out : List (ℕ × OutEvent)

/-- Routing of one plug-in out-event when the parameter queues exist (the
`produce` closure in `process`): gesture begin/end toggle
`is_adjusting_parameter` (duplicate begins and unmatched ends are dropped)
and coalesce into the audio→main queue; `ParamValue` coalesces
`value=Some`; `ParamMod`/`Transport` go to the event-out buffer when it
exists; note events go to the note-out buffer at their port index when
that port exists. -/
def routeOutEventQueues (env : ProcEnv) (acc : RouteAcc) : OutEvent → RouteAcc
  | .paramGestureBegin pid =>
    if acc.adj pid then acc
    else
      { acc with
        adj := fun p => if p = pid then true else acc.adj p
        audio_to_main := acc.audio_to_main ++
          [(pid, { value := none, gesture := some { is_begin := true } })] }
  | .paramGestureEnd pid =>
    if !acc.adj pid then acc
    else
      { acc with
        adj := fun p => if p = pid then false else acc.adj p
        audio_to_main := acc.audio_to_main ++
          [(pid, { value := none, gesture := some { is_begin := false } })] }
  | .paramValue pid v =>
    { acc with
      audio_to_main := acc.audio_to_main ++
        [(pid, { value := some v, gesture := none })] }
  | .paramMod =>
    if env.has_event_out_buffer then { acc with event_out := acc.event_out ++ [.paramMod] }
    else acc
  | .transport =>
    if env.has_event_out_buffer then { acc with event_out := acc.event_out ++ [.transport] }
    else acc
  | .noteOn p =>
    if env.note_out_ports.getD p false then { acc with note_out := acc.note_out ++ [(p, .noteOn p)] }
    else acc
  | .noteOff p =>
    if env.note_out_ports.getD p false then { acc with note_out := acc.note_out ++ [(p, .noteOff p)] }
    else acc
  | .noteEnd p =>
    if env.note_out_ports.getD p false then { acc with note_out := acc.note_out ++ [(p, .noteEnd p)] }
    else acc
  | .noteChoke p =>
    if env.note_out_ports.getD p false then { acc with note_out := acc.note_out ++ [(p, .noteChoke p)] }
    else acc
  | .noteExpression p =>
    if env.note_out_ports.getD p false then { acc with note_out := acc.note_out ++ [(p, .noteExpression p)] }
    else acc
  | .midi p =>
    if env.note_out_ports.getD p false then { acc with note_out := acc.note_out ++ [(p, .midi p)] }
    else acc
  | .midi2 p =>
    if env.note_out_ports.getD p false then { acc with note_out := acc.note_out ++ [(p, .midi2 p)] }
    else acc
  | .otherKind => acc

/-- Routing of one plug-in out-event when the parameter queues are absent
(the `else` branch of the routing step): `ParamGestureBegin`,
`ParamGestureEnd` and `ParamValue` fall into the catch-all and are
discarded; `ParamMod`/`Transport` and the note events are routed exactly as
in the queue branch. -/
def routeOutEventNoQueues (env : ProcEnv) (acc : RouteAcc) : OutEvent → RouteAcc
  | .paramGestureBegin _ => acc
  | .paramGestureEnd _ => acc
  | .paramValue _ _ => acc
  | e => routeOutEventQueues env acc e

/-- The whole out-event routing loop over `self.out_events`. -/
def routeOutEvents (env : ProcEnv) (adj : ℕ → Bool) : RouteAcc :=
  let init : RouteAcc := { adj := adj, audio_to_main := [], event_out := [], note_out := [] }
  if env.has_param_queues then
    env.process_out_events.foldl (routeOutEventQueues env) init
  else
    env.process_out_events.foldl (routeOutEventNoQueues env) init

/-- Whether a plug-in out-event is a `ParamMod` or `Transport` event (the
two kinds forwarded to the event-out buffer). -/
def OutEvent.isModOrTransport : OutEvent → Bool
  | .paramMod => true
  | .transport => true
  | _ => false

/-- Where a plug-in out-event goes among the note-out buffers: a note
event lands at its port index when `note_out_buffers` holds a buffer
there; everything else goes nowhere. -/
def noteRoute (env : ProcEnv) : OutEvent → Option (ℕ × OutEvent)
  | .noteOn p => if env.note_out_ports.getD p false then some (p, .noteOn p) else none
  | .noteOff p => if env.note_out_ports.getD p false then some (p, .noteOff p) else none
  | .noteEnd p => if env.note_out_ports.getD p false then some (p, .noteEnd p) else none
  | .noteChoke p => if env.note_out_ports.getD p false then some (p, .noteChoke p) else none
  | .noteExpression p => if env.note_out_ports.getD p false then some (p, .noteExpression p) else none
  | .midi p => if env.note_out_ports.getD p false then some (p, .midi p) else none
  | .midi2 p => if env.note_out_ports.getD p false then some (p, .midi2 p) else none
  | _ => none

/-- The observable outcome of one `process` invocation: the state word
after the call, the ordered calls made into the plug-in, whether the host
cleared (silenced) the audio output buffers, the routed output events, and
the `is_adjusting_parameter` map after the call. -/
structure ProcResult where
  final_state : PluginState
  calls : List PluginCall
  outputs_cleared : Bool
  audio_to_main : List (ℕ × AudioToMainParamValue)
  event_out : List OutEvent
  note_out : List (ℕ × OutEvent)
  adj_after : ℕ → Bool

/-- The tail of `process` once the plug-in is awake and will be invoked: a
sleeping plug-in is first started (the successful `start_processing` path;
the state word is set to `ActiveAndProcessing`), the plug-in's `process`
runs, its out events are routed, and the returned status is applied. On
`Error` the outputs are cleared and the state word is left as it was just
before the `process` call. -/
def processMain (state : PluginState) (adj : ℕ → Bool) (env : ProcEnv) : ProcResult :=
  let woken : PluginState := if state.is_sleeping then .ActiveAndProcessing else state
  let calls_pre : List PluginCall :=
    (if state.is_sleeping then [.startProcessing] else []) ++ [.processCall]
  let r := routeOutEvents env adj
  match env.process_status with
  | .Continue =>
    { final_state := .ActiveAndProcessing, calls := calls_pre, outputs_cleared := false
      audio_to_main := r.audio_to_main, event_out := r.event_out
      note_out := r.note_out, adj_after := r.adj }
  | .ContinueIfNotQuiet =>
    { final_state := .ActiveAndWaitingForQuiet, calls := calls_pre, outputs_cleared := false
      audio_to_main := r.audio_to_main, event_out := r.event_out
      note_out := r.note_out, adj_after := r.adj }
  | .Tail =>
    if env.audio_outputs_silent then
      { final_state := .ActiveAndSleeping, calls := calls_pre ++ [.stopProcessing]
        outputs_cleared := false
        audio_to_main := r.audio_to_main, event_out := r.event_out
        note_out := r.note_out, adj_after := r.adj }
    else
      { final_state := .ActiveAndProcessing, calls := calls_pre, outputs_cleared := false
        audio_to_main := r.audio_to_main, event_out := r.event_out
        note_out := r.note_out, adj_after := r.adj }
  | .Sleep =>
    { final_state := .ActiveAndSleeping, calls := calls_pre ++ [.stopProcessing]
      outputs_cleared := false
      audio_to_main := r.audio_to_main, event_out := r.event_out
      note_out := r.note_out, adj_after := r.adj }
  | .Error =>
    { final_state := woken, calls := calls_pre, outputs_cleared := true
      audio_to_main := r.audio_to_main, event_out := r.event_out
      note_out := r.note_out, adj_after := r.adj }

/-- `PluginInstanceHostAudioThread::process`, one audio block. The control
flow follows the source exactly:

1. (event-out and note-out buffers are cleared first; the result lists
   start from empty);
2. a state that is not `is_active` returns with outputs cleared;
3. a loaded `DEACTIVATE` request flag calls `stop_processing` when
   `is_processing`, sets `WaitingToDrop`, clears outputs and returns;
4. `ActiveWithError` returns with outputs cleared;
5. the queues and buffers are drained (`has_param_in_event`,
   `has_note_in_event`);
6. `ActiveAndWaitingForQuiet` with no note-in event and silent audio
   inputs stops processing, sets `ActiveAndSleeping`, clears outputs,
   `param_flush`es when a parameter event was drained, and returns;
7. a sleeping state with no `PROCESS` request and no note-in event clears
   outputs, optionally `param_flush`es, and returns; otherwise the plug-in
   is started (`start_processing`; failure sets `ActiveWithError`, clears
   outputs, optionally `param_flush`es, and returns) and the state becomes
   `ActiveAndProcessing`;
8. the plug-in's `process` runs and its out events are routed;
9. the returned status is applied (`Continue` → processing,
   `ContinueIfNotQuiet` → waiting-for-quiet, `Tail` → processing then
   sleeping when the outputs are silent, `Sleep` → sleeping, `Error` →
   clear outputs and return without a state transition).

The mutations `process` makes to the request flags (`reset_process`) are
not part of the observable result. -/
def process (state : PluginState) (request_flags : RequestFlags)
    (adj : ℕ → Bool) (env : ProcEnv) : ProcResult :=
  if !state.is_active then
    { final_state := state, calls := [], outputs_cleared := true
      audio_to_main := [], event_out := [], note_out := [], adj_after := adj }
  else if request_flags.deactivate then
    { final_state := .WaitingToDrop
      calls := if state.is_processing then [.stopProcessing] else []
      outputs_cleared := true
      audio_to_main := [], event_out := [], note_out := [], adj_after := adj }
  else if state = .ActiveWithError then
    { final_state := state, calls := [], outputs_cleared := true
      audio_to_main := [], event_out := [], note_out := [], adj_after := adj }
  else
    let has_param := hasParamInEvent env
    let has_note := hasNoteInEvent env
    if state = .ActiveAndWaitingForQuiet && !has_note && env.audio_inputs_silent then
      { final_state := .ActiveAndSleeping
        calls := [.stopProcessing] ++ (if has_param then [.paramFlush] else [])
        outputs_cleared := true
        audio_to_main := [], event_out := [], note_out := [], adj_after := adj }
    else if state.is_sleeping && !request_flags.process && !has_note then
      { final_state := state
        calls := if has_param then [.paramFlush] else []
        outputs_cleared := true
        audio_to_main := [], event_out := [], note_out := [], adj_after := adj }
    else if state.is_sleeping && !env.start_processing_ok then
      { final_state := .ActiveWithError
        calls := [.startProcessing] ++ (if has_param then [.paramFlush] else [])
        outputs_cleared := true
        audio_to_main := [], event_out := [], note_out := [], adj_after := adj }
    else
      processMain state adj env

/-! ## The schedule compiler (`src/graph/compiler.rs`,
`src/graph/compiler/delay_comp_task.rs`) -/

/-- Rust `f64::round` on the rational model: nearest integer, halves away
from zero. Computed on the numerator and denominator so that it evaluates
by kernel reduction; `rustRound_nonneg_eq` and `rustRound_neg_eq` below
prove it is `⌊q + 1/2⌋` for `0 ≤ q` and `⌈q - 1/2⌉` for `q < 0`. -/
def rustRound (q : ℚ) : ℤ :=
  q.num.sign * (((2 * q.num.natAbs + q.den) / (2 * q.den) : ℕ) : ℤ)

/-- The three port types of the abstract graph (`PortType::AUDIO_TYPE_IDX`,
`NOTE_TYPE_IDX`, `PARAM_AUTOMATION_TYPE_IDX`; per the abstract planner
interface, buffers carry exactly one of these three type indices). -/
inductive PortTypeIdx where
  | audio
  | note
  | paramEvent
  deriving DecidableEq, Repr

/-- A buffer reference in the abstract schedule: a port type and a buffer
index. -/
structure BufferId where
  type_index : PortTypeIdx
  buffer_index : ℕ
  deriving DecidableEq, Repr

/-- `InsertedDelay` from the abstract planner: the edge it sits on, the
delay in (fractional) samples, and the input/output buffers. -/
structure InsertedDelay where
  edge : ℕ
  delay : ℚ
  input_buffer : BufferId
  output_buffer : BufferId
  deriving DecidableEq, Repr

/-- `DelayCompKey`: a delay-comp cache entry is keyed by the edge and the
rounded delay in samples. -/
structure DelayCompKey where
  edge : ℕ
  delay : ℕ
  deriving DecidableEq, Repr

/-- One cached delay-comp node. `ring_state` stands for the node's mutable
ring buffer: it is preserved exactly when the compiler reuses the same
shared node instance, and is `0` for a freshly constructed node. -/
structure DelayCompNode where
  delay : ℕ
  active : Bool
  ring_state : ℕ
  deriving DecidableEq, Repr

/-- One per-port-type delay-comp cache map (`FnvHashMap<DelayCompKey, _>`,
embedded as a key-unique association list). -/
abbrev DelayMap := List (DelayCompKey × DelayCompNode)

/-- `shared_pool.delay_comp_nodes`: the three per-port-type maps. -/
structure DelayCompNodePools where
  audio : DelayMap
  note : DelayMap
  param_event : DelayMap
  deriving DecidableEq, Repr

/-- The map for a given port type. -/
def DelayCompNodePools.mapFor (pools : DelayCompNodePools) : PortTypeIdx → DelayMap
  | .audio => pools.audio
  | .note => pools.note
  | .paramEvent => pools.param_event

/-- The compiled tasks. The buffer wiring of the `GraphIn`/`GraphOut`,
`Plugin` and `Sum` constructors lives in `graph_in_out_task.rs`,
`plugin_task.rs` and `sum_task.rs`, which are not part of this source set;
those tasks are kept abstract (the delay-comp claims do not depend on
them). A delay task records its cache key, a snapshot of the shared node it
points at, and its input/output buffer indices. -/
inductive Task where
  | graphIn (node_id : ℕ)
  | graphOut (node_id : ℕ)
  | plugin (node_id : ℕ)
  | audioDelayComp (key : DelayCompKey) (node : DelayCompNode) (audio_in audio_out : ℕ)
  | noteDelayComp (key : DelayCompKey) (node : DelayCompNode) (note_in note_out : ℕ)
  | paramEventDelayComp (key : DelayCompKey) (node : DelayCompNode) (event_in event_out : ℕ)
  | sum
  deriving DecidableEq, Repr


/-- The cache key a `Delay` entry resolves to: its edge and its rounded
delay in samples. -/
def InsertedDelay.cacheKey (d : InsertedDelay) : DelayCompKey :=
  { edge := d.edge, delay := (rustRound d.delay).toNat }

/-- Replacing the map of one port type in the pools. -/
def DelayCompNodePools.setMap (pools : DelayCompNodePools) :
    PortTypeIdx → DelayMap → DelayCompNodePools
  | .audio, m => { pools with audio := m }
  | .note, m => { pools with note := m }
  | .paramEvent, m => { pools with param_event := m }

/-- The delay task variant matching a port type. -/
def delayTask (ptype : PortTypeIdx) (key : DelayCompKey) (node : DelayCompNode)
    (buf_in buf_out : ℕ) : Task :=
  match ptype with
  | .audio => .audioDelayComp key node buf_in buf_out
  | .note => .noteDelayComp key node buf_in buf_out
  | .paramEvent => .paramEventDelayComp key node buf_in buf_out

/-- `GraphCompilerError` (the abstract-compile error cannot arise here
because the embedding starts from an already-compiled abstract schedule;
the verifier error payloads are dropped). -/
inductive GraphCompilerError where
  | UnexpectedError (msg : String)
  | VerifierError
  deriving DecidableEq, Repr

/-- Whether a compile result is the `UnexpectedError` variant. -/
def isUnexpectedError : Except GraphCompilerError (List Task) → Bool
  | .error (.UnexpectedError _) => true
  | _ => false

/-- Insert-if-absent plus touch (`entry(key).or_insert_with(new).active =
true`): when the key is present, its node is marked active in place and
returned; otherwise a fresh active node of `delay` samples is inserted and
returned. -/
def touchOrInsert (m : DelayMap) (key : DelayCompKey) (delay : ℕ) :
    DelayCompNode × DelayMap :=
  match lookupKey m key with
  | some n =>
    let n2 := { n with active := true }
    (n2, m.map (fun p => if p.1 = key then (p.1, n2) else p))
  | none =>
    let n2 : DelayCompNode := { delay := delay, active := true, ring_state := 0 }
    (n2, m ++ [(key, n2)])

/-- `construct_delay_comp_task`: a negative rounded delay is rejected with
`UnexpectedError`; otherwise the cache map matching the input buffer's port
type is touched-or-inserted at `(edge, delay)` and the matching delay task
is emitted. -/
def construct_delay_comp_task (inserted_delay : InsertedDelay) (delay : ℤ)
    (pools : DelayCompNodePools) :
    Except GraphCompilerError (Task × DelayCompNodePools) :=
  if delay < 0 then
    .error (.UnexpectedError "Abstract schedule inserted a delay with negative latency")
  else
    let delay_u : ℕ := delay.toNat
    let delay_comp_key : DelayCompKey := { edge := inserted_delay.edge, delay := delay_u }
    match inserted_delay.input_buffer.type_index with
    | .audio =>
      let (shared_node, m) := touchOrInsert pools.audio delay_comp_key delay_u
      .ok (.audioDelayComp delay_comp_key shared_node
            inserted_delay.input_buffer.buffer_index inserted_delay.output_buffer.buffer_index,
          { pools with audio := m })
    | .note =>
      let (shared_node, m) := touchOrInsert pools.note delay_comp_key delay_u
      .ok (.noteDelayComp delay_comp_key shared_node
            inserted_delay.input_buffer.buffer_index inserted_delay.output_buffer.buffer_index,
          { pools with note := m })
    | .paramEvent =>
      let (shared_node, m) := touchOrInsert pools.param_event delay_comp_key delay_u
      .ok (.paramEventDelayComp delay_comp_key shared_node
            inserted_delay.input_buffer.buffer_index inserted_delay.output_buffer.buffer_index,
          { pools with param_event := m })

/-- `ScheduleEntry` of the abstract schedule. -/
inductive ScheduleEntry where
  | node (id : ℕ)
  | delay (d : InsertedDelay)
  | sum
  deriving DecidableEq, Repr

/-- Marking a map's entries `active = false` (start of a compile). -/
def markAllInactive (m : DelayMap) : DelayMap :=
  m.map (fun p => (p.1, { p.2 with active := false }))

/-- Evicting the entries still `active = false` (end of a compile). -/
def evictInactive (m : DelayMap) : DelayMap :=
  m.filter (fun p => p.2.active)

/-- The translation of one abstract entry into a task. `Node` entries
become the graph-in, graph-out or plugin task by node id; `Delay` entries
round the delay and go through `construct_delay_comp_task`; `Sum` entries
become a sum task. (The failure modes of node and sum construction live in
source files outside this set; those constructors are total here.) -/
def compileEntry (graph_in_id graph_out_id : ℕ) (entry : ScheduleEntry)
    (pools : DelayCompNodePools) :
    Except GraphCompilerError (Task × DelayCompNodePools) :=
  match entry with
  | .node id =>
    if id = graph_in_id then .ok (.graphIn id, pools)
    else if id = graph_out_id then .ok (.graphOut id, pools)
    else .ok (.plugin id, pools)
  | .delay d => construct_delay_comp_task d (rustRound d.delay) pools
  | .sum => .ok (.sum, pools)

/-- Prepending the task emitted for one entry to the result of the rest of
the loop (`tasks.push(task)` in source order). -/
def consTask (task : Task)
    (r : (Except GraphCompilerError (List Task)) × DelayCompNodePools) :
    (Except GraphCompilerError (List Task)) × DelayCompNodePools :=
  match r.1 with
  | .error e => (.error e, r.2)
  | .ok tasks => (.ok (task :: tasks), r.2)

/-- The compile loop over the abstract schedule. The pools are threaded
through every step and returned even on error (the Rust loop mutates the
shared pool in place and `?`-returns, leaving the partial mutations
behind). -/
def compileEntries (graph_in_id graph_out_id : ℕ) :
    List ScheduleEntry → DelayCompNodePools →
    (Except GraphCompilerError (List Task)) × DelayCompNodePools
  | [], pools => (.ok [], pools)
  | entry :: rest, pools =>
    match compileEntry graph_in_id graph_out_id entry pools with
    | .error e => (.error e, pools)
    | .ok (task, pools2) =>
      consTask task (compileEntries graph_in_id graph_out_id rest pools2)

/-- The input and output buffer references of a task, for the verifier.
The wiring of the node and sum tasks lives in source files outside this
set, so only the delay tasks report buffers. -/
def taskBuffers : Task → List (PortTypeIdx × ℕ) × List (PortTypeIdx × ℕ)
  | .audioDelayComp _ _ i o => ([(.audio, i)], [(.audio, o)])
  | .noteDelayComp _ _ i o => ([(.note, i)], [(.note, o)])
  | .paramEventDelayComp _ _ i o => ([(.paramEvent, i)], [(.paramEvent, o)])
  | _ => ([], [])

/-- Modelled from the spec: the schedule verifier
(`src/graph/compiler/verifier.rs` is not part of this source set). Per
§4.7 it reports an error when, within a single task, the same buffer
appears as both an input and an output, or twice as an output. -/
def verify_schedule (tasks : List Task) : Bool :=
  tasks.all (fun t =>
    let bufs := taskBuffers t
    bufs.2.Nodup && bufs.1.all (fun b => !bufs.2.contains b))

/-- `compile_graph`: mark every cached delay-comp node inactive, translate
the abstract schedule entry by entry, evict the nodes still inactive, and
run the verifier on the new task list. Returns the result together with
the delay-comp pools after the call (on an entry error the sweep is
skipped, so the pools keep the inactive marks). The buffer-pool resizing
step (`set_num_buffers`) has no bearing on the task list or the cache and
is not modelled. -/
def markPools (pools : DelayCompNodePools) : DelayCompNodePools :=
  { audio := markAllInactive pools.audio
    note := markAllInactive pools.note
    param_event := markAllInactive pools.param_event }

/-- `compile_graph` continued: translate the abstract schedule entry by
entry, evict the cache nodes still inactive, and run the verifier on the
new task list. -/
def compile_graph (pools : DelayCompNodePools) (graph_in_id graph_out_id : ℕ)
    (schedule : List ScheduleEntry) :
    (Except GraphCompilerError (List Task)) × DelayCompNodePools :=
  let r := compileEntries graph_in_id graph_out_id schedule (markPools pools)
  match r.1 with
  | .error e => (.error e, r.2)
  | .ok tasks =>
    let pools3 : DelayCompNodePools :=
      { audio := evictInactive r.2.audio
        note := evictInactive r.2.note
        param_event := evictInactive r.2.param_event }
    if verify_schedule tasks then (.ok tasks, pools3)
    else (.error .VerifierError, pools3)

/-- Whether the abstract schedule references cache key `key` of port type
`ptype`: it holds a `Delay` entry on that edge, of that port type, whose
delay rounds to `key.delay`. -/
def referencedBy (schedule : List ScheduleEntry) (ptype : PortTypeIdx)
    (key : DelayCompKey) : Bool :=
  schedule.any (fun e =>
    match e with
    | .delay d =>
      d.input_buffer.type_index = ptype && d.edge = key.edge &&
        rustRound d.delay = (key.delay : ℤ)
    | _ => false)

/-- Whether some `Delay` entry of the schedule has a negative rounded
delay (`round` is half-away-from-zero, as in Rust). -/
def hasNegDelay (schedule : List ScheduleEntry) : Bool :=
  schedule.any (fun e =>
    match e with
    | .delay d => decide (rustRound d.delay < 0)
    | _ => false)

/-- Whether every `Delay` entry of the schedule has a non-negative rounded
delay (the condition under which the translation loop runs to completion,
since node and sum construction cannot fail here). -/
def allDelaysNonneg (schedule : List ScheduleEntry) : Bool :=
  schedule.all (fun e =>
    match e with
    | .delay d => decide (0 ≤ rustRound d.delay)
    | _ => true)

/-- The delay-comp cache reference of a task: its port type, cache key and
the snapshot of the shared node it points at. -/
def Task.delayRef : Task → Option (PortTypeIdx × DelayCompKey × DelayCompNode)
  | .audioDelayComp k n _ _ => some (.audio, k, n)
  | .noteDelayComp k n _ _ => some (.note, k, n)
  | .paramEventDelayComp k n _ _ => some (.paramEvent, k, n)
  | _ => none

/-- The hash-map representation invariant: the keys of an association-list
map are pairwise distinct. -/
def keysNodup (m : DelayMap) : Prop :=
  (m.map Prod.fst).Nodup

/-- The node a referenced cache key holds after a compile: the node already
cached under that key re-marked active, or a fresh active node of
`key.delay` samples. -/
def survivingNode (pools : DelayCompNodePools) (ptype : PortTypeIdx)
    (key : DelayCompKey) : DelayCompNode :=
  match lookupKey (pools.mapFor ptype) key with
  | some n => { n with active := true }
  | none => { delay := key.delay, active := true, ring_state := 0 }

/-! ## Concrete inputs used by the witnesses and counterexamples -/

/-- A block environment with nothing pending: empty queues and buffers, a
plug-in that accepts `start_processing` and returns `Continue` with no out
events. -/
def envQuiet : ProcEnv :=
  { self_id := 0
    has_param_queues := true
    drained_param_values := []
    drained_param_mods := []
    note_in_buffers := []
    event_in_buffers := []
    has_event_out_buffer := true
    note_out_ports := [true]
    audio_inputs_silent := true
    audio_outputs_silent := true
    start_processing_ok := true
    process_status := .Continue
    process_out_events := [] }

/-- A block environment whose plug-in `process` returns `Sleep`. -/
def envSleepStatus : ProcEnv :=
  { envQuiet with process_status := .Sleep }

/-- A block environment whose plug-in `process` returns `Error`, with one
pending drained parameter value. -/
def envErrorStatus : ProcEnv :=
  { envQuiet with process_status := .Error
                  drained_param_values := [(4, mkRat 1 2)] }

/-- A block environment for a plug-in activated with zero parameters
(`param_queues` absent), whose `process` emits one event of every routed
kind. -/
def envNoQueues : ProcEnv :=
  { envQuiet with
    has_param_queues := false
    process_out_events :=
      [.paramGestureBegin 1, .paramValue 1 (mkRat 1 2), .paramGestureEnd 1,
       .paramMod, .transport, .noteOn 0, .noteOff 3, .otherKind] }

/-- A registered, modulatable parameter (id 7). -/
def paramInfoMod : ParamInfo :=
  { stable_id := 7, is_readonly := false, is_modulatable := true
    min_value := mkRat 0 1, max_value := mkRat 1 1 }

/-- A registered parameter that is not modulatable and not read-only
(id 7). -/
def paramInfoPlain : ParamInfo :=
  { stable_id := 7, is_readonly := false, is_modulatable := false
    min_value := mkRat 0 1, max_value := mkRat 1 1 }

/-- A host whose only parameter is modulatable, with live queues. -/
def ctxMod : ParamHostCtx :=
  { params := [(7, paramInfoMod)], queues_present := true, save_state_dirty := false }

/-- A host whose only parameter is neither modulatable nor read-only, with
live queues. -/
def ctxPlain : ParamHostCtx :=
  { params := [(7, paramInfoPlain)], queues_present := true, save_state_dirty := false }

/-- A host whose only parameter is writable but whose parameter queues are
absent (the plug-in is not activated). -/
def ctxNoQueues : ParamHostCtx :=
  { params := [(7, paramInfoPlain)], queues_present := false, save_state_dirty := false }

/-- An activation oracle on which every plug-in call succeeds. -/
def oracleOk : ActivateOracle :=
  { audio_ports := .ok (), note_ports := .ok (), param_scan := .ok ()
    plugin_activate := .ok () }

/-- The abstract schedule of scenario S2: a single audio `Delay` entry on
edge 3 with `delay = -0.4`, reading buffer 2 and writing buffer 5. -/
def schedNegPointFour : List ScheduleEntry :=
  [.delay { edge := 3, delay := mkRat (-2) 5
            input_buffer := { type_index := .audio, buffer_index := 2 }
            output_buffer := { type_index := .audio, buffer_index := 5 } }]

/-- An abstract schedule holding one audio `Delay` entry on edge 3 with
`delay = 128.0`. -/
def schedDelay128 : List ScheduleEntry :=
  [.node 100,
   .delay { edge := 3, delay := mkRat 128 1
            input_buffer := { type_index := .audio, buffer_index := 2 }
            output_buffer := { type_index := .audio, buffer_index := 5 } },
   .node 7]

/-- The empty delay-comp pools. -/
def poolsEmpty : DelayCompNodePools :=
  { audio := [], note := [], param_event := [] }


/-- Delay-comp pools holding a used audio node on edge 3 at 128 samples
(with ring state 42) and a stale audio node on edge 9 at 7 samples. -/
def poolsWithNodes : DelayCompNodePools :=
  { audio := [({ edge := 3, delay := 128 }, { delay := 128, active := true, ring_state := 42 }),
              ({ edge := 9, delay := 7 }, { delay := 7, active := true, ring_state := 5 })]
    note := []
    param_event := [] }

/-! ## Theorems -/

/-- `q + 1/2` written over the numerator and denominator of `q`. -/
theorem rat_add_half_eq (q : ℚ) :
    q + 1 / 2 = ((2 * q.num + q.den : ℤ) : ℚ) / ((2 * q.den : ℕ) : ℚ) := by
  have hd : (q.den : ℚ) ≠ 0 := by exact_mod_cast q.den_nz
  conv_lhs => rw [← Rat.num_div_den q]
  push_cast
  field_simp
  ring

/-- On non-negative rationals, `rustRound` is `⌊q + 1/2⌋`, i.e. Rust's
round-half-away-from-zero. -/
theorem rustRound_nonneg_eq (q : ℚ) (h : 0 ≤ q) : rustRound q = ⌊q + 1 / 2⌋ := by
  have hn : 0 ≤ q.num := Rat.num_nonneg.mpr h
  rw [rat_add_half_eq q, Rat.floor_intCast_div_natCast]
  rcases hn.lt_or_eq with hpos | hzero
  · have hs : q.num.sign = 1 := Int.sign_eq_one_of_pos hpos
    have habs : (q.num.natAbs : ℤ) = q.num := Int.natAbs_of_nonneg hn
    unfold rustRound
    rw [hs, one_mul, Int.natCast_div]
    push_cast [habs]
    ring_nf
  · have hq0 : q.num = 0 := hzero.symm
    have hdpos : 0 < q.den := q.pos
    unfold rustRound
    rw [hq0]
    simp only [Int.sign_zero, zero_mul, Int.natAbs_zero, mul_zero, zero_add]
    rw [← Int.natCast_div, Nat.div_eq_of_lt (by omega)]
    simp

/-- On negative rationals, `rustRound` is `⌈q - 1/2⌉`, i.e. Rust's
round-half-away-from-zero. -/
theorem rustRound_neg_eq (q : ℚ) (h : q < 0) : rustRound q = ⌈q - 1 / 2⌉ := by
  have hn : q.num < 0 := Rat.num_neg.mpr h
  have hs : q.num.sign = -1 := Int.sign_eq_neg_one_of_neg hn
  have habs : (q.num.natAbs : ℤ) = -q.num := Int.ofNat_natAbs_of_nonpos hn.le
  have hkey : q - 1 / 2 = ((2 * q.num - q.den : ℤ) : ℚ) / ((2 * q.den : ℕ) : ℚ) := by
    have hd : (q.den : ℚ) ≠ 0 := by exact_mod_cast q.den_nz
    conv_lhs => rw [← Rat.num_div_den q]
    push_cast
    field_simp
    ring
  rw [hkey]
  have hceil : ⌈((2 * q.num - q.den : ℤ) : ℚ) / ((2 * q.den : ℕ) : ℚ)⌉
      = -⌊((-(2 * q.num - q.den) : ℤ) : ℚ) / ((2 * q.den : ℕ) : ℚ)⌋ := by
    rw [← Int.ceil_neg]
    congr 1
    push_cast
    ring
  rw [hceil, Rat.floor_intCast_div_natCast]
  unfold rustRound
  rw [hs, Int.natCast_div]
  push_cast [habs]
  ring_nf

/-- C6: the audio→main coalescing rule overwrites the `value` field exactly
when the incoming `value` is `Some`, and the `gesture` field exactly when
the incoming `gesture` is `Some`; hence a value-only update keeps a pending
gesture and a gesture-only update keeps a pending value. -/
theorem claim_C6 (old new_value : AudioToMainParamValue) :
    (old.update new_value).value =
      (match new_value.value with
       | some v => some v
       | none => old.value) ∧
    (old.update new_value).gesture =
      (match new_value.gesture with
       | some g => some g
       | none => old.gesture) := by
  cases hv : new_value.value <;> cases hg : new_value.gesture <;>
    simp [AudioToMainParamValue.update, hv, hg]

/-- C3: evaluation of `set_param_mod_amount` at its failing input — the
modulatable-flag check is inverted, so a registered parameter whose
`IS_MODULATABLE` flag is set is rejected with `ParamIsNotModulatable`,
while a parameter without the flag is accepted. -/
theorem claim_C3 :
    set_param_mod_amount ctxMod 7 (mkRat 1 1) =
      .error (.ParamIsNotModulatable 7) ∧
    lookupKey ctxMod.params 7 = some paramInfoMod ∧
    paramInfoMod.is_modulatable = true ∧
    (set_param_mod_amount ctxPlain 7 (mkRat 1 1)).isOk = true ∧
    lookupKey ctxPlain.params 7 = some paramInfoPlain ∧
    paramInfoPlain.is_modulatable = false :=
  ⟨rfl, rfl, rfl, rfl, rfl, rfl⟩

/-- C9: on a registered, writable parameter of a host whose parameter
queues are absent, `set_param_value` still returns `Ok` with the clamped
value and sets the dirty flag, and enqueues nothing. -/
theorem claim_C9 (ctx : ParamHostCtx) (param_id : ℕ) (v : ℚ) (info : ParamInfo)
    (hlook : lookupKey ctx.params param_id = some info)
    (hro : info.is_readonly = false)
    (hq : ctx.queues_present = false) :
    set_param_value ctx param_id v =
      .ok { returned := rustClamp v info.min_value info.max_value
            dirty_after := true
            enqueued := none } ∧
    (info.min_value ≤ info.max_value →
      info.min_value ≤ rustClamp v info.min_value info.max_value ∧
      rustClamp v info.min_value info.max_value ≤ info.max_value) := by
  constructor
  · simp [set_param_value, hlook, hro, hq]
  · intro hle
    unfold rustClamp
    split_ifs with h1 h2 <;> constructor <;> linarith

/-- Witness for C9 at a concrete host with absent queues: setting parameter
7 to 3 clamps to the declared range and enqueues nothing. -/
theorem claim_C9_witness :
    set_param_value ctxNoQueues 7 (mkRat 3 1) =
      .ok { returned := rustClamp (mkRat 3 1) paramInfoPlain.min_value paramInfoPlain.max_value
            dirty_after := true
            enqueued := none } :=
  (claim_C9 ctxNoQueues 7 (mkRat 3 1) paramInfoPlain rfl rfl rfl).1

/-- Counterexample to C7 as stated: with a loaded plug-in and no pending
restart, `can_activate` — and the whole of `activate` — succeeds from the
state `WaitingToDrop`, which is neither `Inactive` nor
`InactiveWithError`. -/
theorem claim_C7_counterexample :
    can_activate true .WaitingToDrop false = .ok () ∧
    activate true .WaitingToDrop false oracleOk = (.ok (), .ActiveAndSleeping) ∧
    PluginState.WaitingToDrop ≠ .Inactive ∧
    PluginState.WaitingToDrop ≠ .InactiveWithError :=
  ⟨rfl, rfl, by decide, by decide⟩

/-- C7 (amended): the activation precheck succeeds exactly when a
main-thread plug-in is loaded, the state word is not `is_active` (that is,
it is one of `Inactive`, `InactiveWithError`, `WaitingToDrop`,
`DroppedAndReadyToDeactivate`) and no restart is pending; every precheck
failure is one of `NotLoaded`, `AlreadyActive`, `RestartScheduled` and
propagates out of `activate` with the state word unchanged. -/
theorem claim_C7 (loaded : Bool) (st : PluginState) (restart : Bool) (o : ActivateOracle) :
    (can_activate loaded st restart = .ok () ↔
      (loaded = true ∧ st.is_active = false ∧ restart = false)) ∧
    (∀ e, can_activate loaded st restart = .error e →
      activate loaded st restart o = (.error e, st) ∧
      (e = .NotLoaded ∨ e = .AlreadyActive ∨ e = .RestartScheduled)) ∧
    (loaded = false → can_activate loaded st restart = .error .NotLoaded) ∧
    (loaded = true → st.is_active = true →
      can_activate loaded st restart = .error .AlreadyActive) ∧
    (loaded = true → st.is_active = false → restart = true →
      can_activate loaded st restart = .error .RestartScheduled) := by
  cases loaded <;> cases restart <;> cases hst : st.is_active <;>
    simp [can_activate, activate, hst]

/-- Witness for C7 at concrete states: activation is allowed from
`Inactive`, and a missing plug-in propagates `NotLoaded` with the state
unchanged. -/
theorem claim_C7_witness :
    can_activate true .Inactive false = .ok () ∧
    activate false .Inactive false oracleOk = (.error .NotLoaded, .Inactive) :=
  ⟨(claim_C7 true .Inactive false oracleOk).1.mpr (by decide),
   ((claim_C7 false .Inactive false oracleOk).2.1 .NotLoaded rfl).1⟩

/-- C1: when the state is active and the `DEACTIVATE` request flag is read
at the start of a block, `process` calls `stop_processing` exactly when the
state satisfies `is_processing`, sets the state word to `WaitingToDrop`,
clears the outputs, and performs zero calls to the plug-in's `process`. -/
theorem claim_C1 (st : PluginState) (flags : RequestFlags) (adj : ℕ → Bool) (env : ProcEnv)
    (ha : st.is_active = true) (hd : flags.deactivate = true) :
    (process st flags adj env).calls =
      (if st.is_processing then [PluginCall.stopProcessing] else []) ∧
    (process st flags adj env).final_state = .WaitingToDrop ∧
    (process st flags adj env).outputs_cleared = true ∧
    PluginCall.processCall ∉ (process st flags adj env).calls := by
  cases hp : st.is_processing <;> simp [process, ha, hd, hp]

/-- Witness for C1: a processing plug-in observing `DEACTIVATE` stops,
transitions to `WaitingToDrop`, and is not invoked. -/
theorem claim_C1_witness :
    (process .ActiveAndProcessing { deactivate := true, process := false }
        (fun _ => false) envQuiet).final_state = .WaitingToDrop ∧
    PluginCall.processCall ∉
      (process .ActiveAndProcessing { deactivate := true, process := false }
        (fun _ => false) envQuiet).calls :=
  ⟨(claim_C1 .ActiveAndProcessing { deactivate := true, process := false }
      (fun _ => false) envQuiet rfl rfl).2.1,
   (claim_C1 .ActiveAndProcessing { deactivate := true, process := false }
      (fun _ => false) envQuiet rfl rfl).2.2.2⟩

/-- Prepending a task neither changes whether the loop result is an
`UnexpectedError` nor the threaded pools. -/
theorem consTask_fst_unexpected (t : Task)
    (r : (Except GraphCompilerError (List Task)) × DelayCompNodePools) :
    isUnexpectedError (consTask t r).1 = isUnexpectedError r.1 := by
  rcases r with ⟨fst, snd⟩
  cases fst <;> rfl

/-- A `Node` entry always compiles, leaving the pools untouched. -/
theorem compileEntry_node_ok (gin gout id : ℕ) (pools : DelayCompNodePools) :
    ∃ t, compileEntry gin gout (.node id) pools = .ok (t, pools) := by
  by_cases h1 : id = gin
  · subst h1
    exact ⟨.graphIn id, by simp [compileEntry]⟩
  · by_cases h2 : id = gout
    · subst h2
      exact ⟨.graphOut id, by simp [compileEntry, h1]⟩
    · exact ⟨.plugin id, by simp [compileEntry, h1, h2]⟩

/-- A `Delay` entry with non-negative rounded delay compiles. -/
theorem construct_delay_ok (d : InsertedDelay) (pools : DelayCompNodePools)
    (h : 0 ≤ rustRound d.delay) :
    ∃ t pools2, construct_delay_comp_task d (rustRound d.delay) pools = .ok (t, pools2) := by
  unfold construct_delay_comp_task
  rw [if_neg (by omega)]
  cases d.input_buffer.type_index <;> exact ⟨_, _, rfl⟩

/-- A `Delay` entry with negative rounded delay is rejected with
`UnexpectedError`. -/
theorem construct_delay_err (d : InsertedDelay) (pools : DelayCompNodePools)
    (h : rustRound d.delay < 0) :
    construct_delay_comp_task d (rustRound d.delay) pools =
      .error (.UnexpectedError "Abstract schedule inserted a delay with negative latency") := by
  unfold construct_delay_comp_task
  rw [if_pos h]

/-- The translation loop returns an `UnexpectedError` exactly when some
`Delay` entry has a negative rounded delay. -/
theorem compileEntries_unexpected (gin gout : ℕ) (entries : List ScheduleEntry)
    (pools : DelayCompNodePools) :
    isUnexpectedError (compileEntries gin gout entries pools).1 = hasNegDelay entries := by
  induction entries generalizing pools with
  | nil => simp [compileEntries, isUnexpectedError, hasNegDelay]
  | cons e rest ih =>
    cases e with
    | node id =>
      obtain ⟨t, ht⟩ := compileEntry_node_ok gin gout id pools
      rw [compileEntries, ht, consTask_fst_unexpected, ih]
      simp [hasNegDelay]
    | sum =>
      rw [compileEntries, show compileEntry gin gout .sum pools = .ok (.sum, pools) from rfl,
        consTask_fst_unexpected, ih]
      simp [hasNegDelay]
    | delay d =>
      by_cases hneg : rustRound d.delay < 0
      · rw [compileEntries,
          show compileEntry gin gout (.delay d) pools =
            .error (.UnexpectedError "Abstract schedule inserted a delay with negative latency") from
            construct_delay_err d pools hneg]
        simp [hasNegDelay, isUnexpectedError, hneg]
      · obtain ⟨t, pools2, ht⟩ := construct_delay_ok d pools (by omega)
        rw [compileEntries, show compileEntry gin gout (.delay d) pools = .ok (t, pools2) from ht,
          consTask_fst_unexpected, ih]
        simp [hasNegDelay, hneg]

/-- Counterexample to C2 as stated: the abstract schedule of scenario S2 —
one `Delay` entry with `delay = -0.4` — does NOT make `compile_graph`
return `UnexpectedError`: `-0.4` rounds to `0`, so the compile succeeds and
produces a zero-delay audio delay task. -/
theorem claim_C2_counterexample :
    rustRound (mkRat (-2) 5) = 0 ∧
    isUnexpectedError (compile_graph poolsEmpty 100 101 schedNegPointFour).1 = false ∧
    (compile_graph poolsEmpty 100 101 schedNegPointFour).1 =
      .ok [Task.audioDelayComp { edge := 3, delay := 0 }
        { delay := 0, active := true, ring_state := 0 } 2 5] :=
  ⟨rfl, rfl, rfl⟩

/-- C2 (amended): `compile_graph` returns the `UnexpectedError` variant
exactly when some `Delay` entry of the abstract schedule has a delay that
is negative after rounding to the nearest integer (half away from zero).
A delay of `-0.4` rounds to `0` and is therefore not rejected — it yields
a zero-delay task and a log warning. -/
theorem claim_C2 (pools : DelayCompNodePools) (gin gout : ℕ)
    (sched : List ScheduleEntry) :
    isUnexpectedError (compile_graph pools gin gout sched).1 = hasNegDelay sched := by
  have h := compileEntries_unexpected gin gout sched (markPools pools)
  simp only [compile_graph]
  cases hfst : (compileEntries gin gout sched (markPools pools)).1 with
  | error er =>
    rw [hfst] at h
    simpa [isUnexpectedError] using h
  | ok tasks =>
    rw [hfst] at h
    by_cases hv : verify_schedule tasks = true
    · simpa [isUnexpectedError, hv] using h
    · simpa [isUnexpectedError, hv] using h

set_option maxHeartbeats 1600000 in
/-- When the plug-in's `process` was invoked during a block, the whole
invocation took the main path: the early-return guards all failed, so the
result is `processMain`, the state was active and not `ActiveWithError`. -/
theorem process_main_path (st : PluginState) (flags : RequestFlags) (adj : ℕ → Bool)
    (env : ProcEnv) (hc : PluginCall.processCall ∈ (process st flags adj env).calls) :
    process st flags adj env = processMain st adj env ∧
    st.is_active = true ∧ st ≠ .ActiveWithError := by
  cases st <;> cases hd : flags.deactivate <;> cases hp : flags.process <;>
    cases hnote : hasNoteInEvent env <;> cases hparam : hasParamInEvent env <;>
    cases hstart : env.start_processing_ok <;> cases hsil : env.audio_inputs_silent <;>
    simp_all [process, PluginState.is_active, PluginState.is_processing,
      PluginState.is_sleeping]

/-- A `Sleep` status on the main path lands the state word in
`ActiveAndSleeping`. -/
theorem processMain_sleep (st : PluginState) (adj : ℕ → Bool) (env : ProcEnv)
    (h : env.process_status = .Sleep) :
    (processMain st adj env).final_state = .ActiveAndSleeping := by
  unfold processMain
  rw [h]

/-- A block on a sleeping plug-in with no `PROCESS` request and no note-in
event: outputs cleared, no `process` call, `param_flush` exactly when a
parameter event was drained (and the request flags did not carry
`DEACTIVATE`), state unchanged unless deactivating. -/
theorem process_sleeping_block (st : PluginState) (flags : RequestFlags) (adj : ℕ → Bool)
    (env : ProcEnv) (hs : st.is_sleeping = true) (hp : flags.process = false)
    (hn : hasNoteInEvent env = false) :
    (process st flags adj env).outputs_cleared = true ∧
    PluginCall.processCall ∉ (process st flags adj env).calls ∧
    ((PluginCall.paramFlush ∈ (process st flags adj env).calls) ↔
      (flags.deactivate = false ∧ hasParamInEvent env = true)) ∧
    (flags.deactivate = false → (process st flags adj env).final_state = st) := by
  have hst : st = .ActiveAndSleeping := by
    simpa [PluginState.is_sleeping] using hs
  subst hst
  cases hd : flags.deactivate <;> cases hpar : hasParamInEvent env <;>
    simp [process, hp, hn, hd, hpar, PluginState.is_active, PluginState.is_processing,
      PluginState.is_sleeping]

/-- C5: when the plug-in's `process` returns `Sleep` in a block where it
was invoked, the state word becomes `ActiveAndSleeping`; any following
block whose request flags do not carry `PROCESS` and that drains no
note-in event clears the outputs, calls `param_flush` exactly when a
parameter event was drained (and the block is not a `DEACTIVATE` block,
which drains nothing and flushes nothing), and performs zero calls to the
plug-in's `process`. -/
theorem claim_C5 (st1 : PluginState) (flags1 : RequestFlags) (adj1 : ℕ → Bool) (env1 : ProcEnv)
    (flags2 : RequestFlags) (adj2 : ℕ → Bool) (env2 : ProcEnv)
    (hsleep : env1.process_status = .Sleep)
    (hcall : PluginCall.processCall ∈ (process st1 flags1 adj1 env1).calls)
    (hp2 : flags2.process = false)
    (hn2 : hasNoteInEvent env2 = false) :
    (process st1 flags1 adj1 env1).final_state = .ActiveAndSleeping ∧
    (process (process st1 flags1 adj1 env1).final_state flags2 adj2 env2).outputs_cleared = true ∧
    PluginCall.processCall ∉
      (process (process st1 flags1 adj1 env1).final_state flags2 adj2 env2).calls ∧
    ((PluginCall.paramFlush ∈
        (process (process st1 flags1 adj1 env1).final_state flags2 adj2 env2).calls) ↔
      (flags2.deactivate = false ∧ hasParamInEvent env2 = true)) := by
  obtain ⟨heq, -, -⟩ := process_main_path st1 flags1 adj1 env1 hcall
  have h1 : (process st1 flags1 adj1 env1).final_state = .ActiveAndSleeping := by
    rw [heq]
    exact processMain_sleep st1 adj1 env1 hsleep
  rw [h1]
  obtain ⟨o1, o2, o3, -⟩ := process_sleeping_block .ActiveAndSleeping flags2 adj2 env2 rfl hp2 hn2
  exact ⟨rfl, o1, o2, o3⟩

/-- Witness for C5: a processing plug-in whose `process` returns `Sleep`
goes to `ActiveAndSleeping`, and the next quiet block does not invoke it. -/
theorem claim_C5_witness :
    (process .ActiveAndProcessing { deactivate := false, process := false }
        (fun _ => false) envSleepStatus).final_state = .ActiveAndSleeping ∧
    PluginCall.processCall ∉
      (process (process .ActiveAndProcessing { deactivate := false, process := false }
          (fun _ => false) envSleepStatus).final_state
        { deactivate := false, process := false } (fun _ => false) envQuiet).calls :=
  ⟨(claim_C5 .ActiveAndProcessing { deactivate := false, process := false }
      (fun _ => false) envSleepStatus
      { deactivate := false, process := false } (fun _ => false) envQuiet
      rfl (by decide) rfl rfl).1,
   (claim_C5 .ActiveAndProcessing { deactivate := false, process := false }
      (fun _ => false) envSleepStatus
      { deactivate := false, process := false } (fun _ => false) envQuiet
      rfl (by decide) rfl rfl).2.2.1⟩

/-- C8: when the plug-in's `process` call returns `Error`, the host clears
all output buffers and returns without applying any state transition: the
state word keeps the value it had at the moment of the `process` call (the
entry state, unless this very block woke the plug-in from sleep, in which
case it stays `ActiveAndProcessing`), and that value satisfies
`is_processing`, so the plug-in will be invoked again on the next ordinary
block. -/
theorem claim_C8 (st : PluginState) (flags : RequestFlags) (adj : ℕ → Bool) (env : ProcEnv)
    (he : env.process_status = .Error)
    (hc : PluginCall.processCall ∈ (process st flags adj env).calls) :
    (process st flags adj env).outputs_cleared = true ∧
    (process st flags adj env).final_state =
      (if st.is_sleeping then .ActiveAndProcessing else st) ∧
    (st.is_sleeping = false → (process st flags adj env).final_state = st) ∧
    (process st flags adj env).final_state.is_processing = true := by
  obtain ⟨heq, ha, hne⟩ := process_main_path st flags adj env hc
  rw [heq]
  unfold processMain
  rw [he]
  refine ⟨rfl, rfl, ?_, ?_⟩
  · intro hns
    simp [hns]
  · cases st <;> simp_all [PluginState.is_active, PluginState.is_sleeping,
      PluginState.is_processing]

/-- Witness for C8: a processing plug-in whose `process` errors keeps its
state and has its outputs silenced. -/
theorem claim_C8_witness :
    (process .ActiveAndProcessing { deactivate := false, process := false }
        (fun _ => false) envErrorStatus).outputs_cleared = true ∧
    (process .ActiveAndProcessing { deactivate := false, process := false }
        (fun _ => false) envErrorStatus).final_state = .ActiveAndProcessing :=
  ⟨(claim_C8 .ActiveAndProcessing { deactivate := false, process := false }
      (fun _ => false) envErrorStatus rfl (by decide)).1,
   (claim_C8 .ActiveAndProcessing { deactivate := false, process := false }
      (fun _ => false) envErrorStatus rfl (by decide)).2.2.1 rfl⟩

/-- The out-event routing loop of the queue-less branch, characterised:
`ParamMod`/`Transport` events go to the event-out buffer when it exists,
note events go to their note-out port when it exists, and nothing else is
kept — in particular `ParamValue`, `ParamGestureBegin` and
`ParamGestureEnd` are discarded and the adjusting map is untouched. -/
theorem routeNoQueues_foldl (env : ProcEnv) (l : List OutEvent) (acc : RouteAcc) :
    l.foldl (routeOutEventNoQueues env) acc =
      { adj := acc.adj
        audio_to_main := acc.audio_to_main
        event_out := acc.event_out ++
          (if env.has_event_out_buffer then l.filter OutEvent.isModOrTransport else [])
        note_out := acc.note_out ++ l.filterMap (noteRoute env) } := by
  induction l generalizing acc with
  | nil => simp
  | cons e rest ih =>
    cases e <;>
      simp only [List.foldl_cons, routeOutEventNoQueues, routeOutEventQueues,
        List.filter_cons, List.filterMap_cons, noteRoute, OutEvent.isModOrTransport, ih] <;>
      split_ifs <;>
      simp_all

/-- The whole routing step when the parameter queues are absent. -/
theorem routeOutEvents_noQueues (env : ProcEnv) (adj : ℕ → Bool)
    (hq : env.has_param_queues = false) :
    routeOutEvents env adj =
      { adj := adj
        audio_to_main := []
        event_out := if env.has_event_out_buffer then
            env.process_out_events.filter OutEvent.isModOrTransport
          else []
        note_out := env.process_out_events.filterMap (noteRoute env) } := by
  unfold routeOutEvents
  rw [hq]
  simp [routeNoQueues_foldl]

/-- The routed-event fields of the main path come from the routing loop,
whatever the returned status. -/
theorem processMain_routing (st : PluginState) (adj : ℕ → Bool) (env : ProcEnv) :
    (processMain st adj env).audio_to_main = (routeOutEvents env adj).audio_to_main ∧
    (processMain st adj env).event_out = (routeOutEvents env adj).event_out ∧
    (processMain st adj env).note_out = (routeOutEvents env adj).note_out ∧
    (processMain st adj env).adj_after = (routeOutEvents env adj).adj := by
  unfold processMain
  cases env.process_status <;> split_ifs <;> simp

/-- C10: on a plug-in whose parameter queues are absent, a block that
invokes the plug-in pushes nothing to the audio→main queue and leaves the
gesture map untouched; the event-out buffer receives exactly the
`ParamMod`/`Transport` events (when it exists) and the note-out buffers
exactly the note events whose port exists — so every `ParamValue`,
`ParamGestureBegin` and `ParamGestureEnd` the plug-in emits is silently
discarded. -/
theorem claim_C10 (st : PluginState) (flags : RequestFlags) (adj : ℕ → Bool) (env : ProcEnv)
    (hq : env.has_param_queues = false)
    (hc : PluginCall.processCall ∈ (process st flags adj env).calls) :
    (process st flags adj env).audio_to_main = [] ∧
    (process st flags adj env).event_out =
      (if env.has_event_out_buffer then
        env.process_out_events.filter OutEvent.isModOrTransport
      else []) ∧
    (process st flags adj env).note_out = env.process_out_events.filterMap (noteRoute env) ∧
    (process st flags adj env).adj_after = adj := by
  obtain ⟨heq, -, -⟩ := process_main_path st flags adj env hc
  rw [heq]
  obtain ⟨r1, r2, r3, r4⟩ := processMain_routing st adj env
  rw [r1, r2, r3, r4, routeOutEvents_noQueues env adj hq]
  exact ⟨rfl, rfl, rfl, rfl⟩

/-- Witness for C10: a queue-less plug-in emitting one event of every kind
routes only the mod/transport and resolvable note events. -/
theorem claim_C10_witness :
    (process .ActiveAndProcessing { deactivate := false, process := false }
        (fun _ => false) envNoQueues).audio_to_main = [] ∧
    (process .ActiveAndProcessing { deactivate := false, process := false }
        (fun _ => false) envNoQueues).event_out =
      (if envNoQueues.has_event_out_buffer then
        envNoQueues.process_out_events.filter OutEvent.isModOrTransport
      else []) :=
  ⟨(claim_C10 .ActiveAndProcessing { deactivate := false, process := false }
      (fun _ => false) envNoQueues rfl (by decide)).1,
   (claim_C10 .ActiveAndProcessing { deactivate := false, process := false }
      (fun _ => false) envNoQueues rfl (by decide)).2.1⟩

theorem lookupKey_cons {κ α : Type} [DecidableEq κ] (a : κ) (b : α) (m : List (κ × α)) (k : κ) :
    lookupKey ((a, b) :: m) k = if a = k then some b else lookupKey m k := by
  by_cases h : a = k <;> simp [lookupKey, List.find?_cons, h]

theorem lookupKey_eq_none {κ α : Type} [DecidableEq κ] (m : List (κ × α)) (k : κ) :
    lookupKey m k = none ↔ k ∉ m.map Prod.fst := by
  induction m with
  | nil => simp [lookupKey]
  | cons p rest ih =>
    obtain ⟨a, b⟩ := p
    by_cases h : a = k
    · subst h
      simp [lookupKey_cons]
    · have hka : ¬k = a := fun hh => h hh.symm
      simp [lookupKey_cons, h, hka, ih]

theorem lookupKey_markAllInactive (m : DelayMap) (k : DelayCompKey) :
    lookupKey (markAllInactive m) k =
      (lookupKey m k).map (fun n => { n with active := false }) := by
  induction m with
  | nil => rfl
  | cons p rest ih =>
    obtain ⟨a, b⟩ := p
    have hstep : markAllInactive ((a, b) :: rest) =
        (a, { b with active := false }) :: markAllInactive rest := rfl
    rw [hstep, lookupKey_cons, lookupKey_cons]
    by_cases h : a = k
    · simp [h]
    · simp [h, ih]

theorem keys_markAllInactive (m : DelayMap) :
    (markAllInactive m).map Prod.fst = m.map Prod.fst := by
  induction m with
  | nil => rfl
  | cons p rest ih => simp [markAllInactive, ih]

theorem lookupKey_replace (m : DelayMap) (k : DelayCompKey) (v : DelayCompNode) :
    lookupKey (m.map (fun p => if p.1 = k then (p.1, v) else p)) k =
      (lookupKey m k).map (fun _ => v) := by
  induction m with
  | nil => rfl
  | cons p rest ih =>
    obtain ⟨a, b⟩ := p
    by_cases h : a = k <;> simp [lookupKey_cons, h, ih]

theorem lookupKey_replace_other (m : DelayMap) (k k2 : DelayCompKey) (v : DelayCompNode)
    (hne : k2 ≠ k) :
    lookupKey (m.map (fun p => if p.1 = k then (p.1, v) else p)) k2 = lookupKey m k2 := by
  induction m with
  | nil => rfl
  | cons p rest ih =>
    obtain ⟨a, b⟩ := p
    by_cases h : a = k
    · subst h
      have hk2 : ¬a = k2 := fun hh => hne (hh ▸ rfl)
      simp [lookupKey_cons, hk2, ih]
    · by_cases h2 : a = k2 <;> simp [lookupKey_cons, h, h2, ih, hne]

theorem keys_replace (m : DelayMap) (k : DelayCompKey) (v : DelayCompNode) :
    (m.map (fun p => if p.1 = k then (p.1, v) else p)).map Prod.fst = m.map Prod.fst := by
  induction m with
  | nil => rfl
  | cons p rest ih =>
    obtain ⟨a, b⟩ := p
    by_cases h : a = k <;> simp [h, ih]

theorem lookupKey_append_right (m : DelayMap) (k : DelayCompKey) (v : DelayCompNode)
    (h : lookupKey m k = none) :
    lookupKey (m ++ [(k, v)]) k = some v := by
  induction m with
  | nil => simp [lookupKey_cons, lookupKey]
  | cons p rest ih =>
    obtain ⟨a, b⟩ := p
    rw [lookupKey_cons] at h
    by_cases ha : a = k
    · simp [ha] at h
    · rw [if_neg ha] at h
      simpa [lookupKey_cons, ha] using ih h

theorem lookupKey_append_other (m : DelayMap) (k k2 : DelayCompKey) (v : DelayCompNode)
    (hne : k2 ≠ k) :
    lookupKey (m ++ [(k, v)]) k2 = lookupKey m k2 := by
  induction m with
  | nil => simp [lookupKey_cons, lookupKey, Ne.symm hne]
  | cons p rest ih =>
    obtain ⟨a, b⟩ := p
    by_cases h2 : a = k2 <;> simp [lookupKey_cons, h2, ih]

theorem touchOrInsert_fst (m : DelayMap) (k : DelayCompKey) (d : ℕ) :
    (touchOrInsert m k d).1 =
      (match lookupKey m k with
       | some n => { n with active := true }
       | none => { delay := d, active := true, ring_state := 0 }) := by
  unfold touchOrInsert
  cases h : lookupKey m k <;> simp [h]

theorem touchOrInsert_lookup_self (m : DelayMap) (k : DelayCompKey) (d : ℕ) :
    lookupKey (touchOrInsert m k d).2 k = some (touchOrInsert m k d).1 := by
  unfold touchOrInsert
  cases h : lookupKey m k with
  | some n => simp [h, lookupKey_replace]
  | none => simp [h, lookupKey_append_right m k _ h]

theorem touchOrInsert_lookup_other (m : DelayMap) (k k2 : DelayCompKey) (d : ℕ)
    (hne : k2 ≠ k) :
    lookupKey (touchOrInsert m k d).2 k2 = lookupKey m k2 := by
  unfold touchOrInsert
  cases h : lookupKey m k with
  | some n => simp [h, lookupKey_replace_other m k k2 _ hne]
  | none => simp [h, lookupKey_append_other m k k2 _ hne]

theorem touchOrInsert_keysNodup (m : DelayMap) (k : DelayCompKey) (d : ℕ)
    (hnd : keysNodup m) : keysNodup (touchOrInsert m k d).2 := by
  unfold touchOrInsert
  cases h : lookupKey m k with
  | some n =>
    simp only [h]
    show ((m.map _).map Prod.fst).Nodup
    rw [keys_replace]
    exact hnd
  | none =>
    have hk : k ∉ m.map Prod.fst := (lookupKey_eq_none m k).mp h
    simp only [h, keysNodup, List.map_append, List.map_cons, List.map_nil]
    rw [List.nodup_append]
    refine ⟨hnd, List.nodup_singleton k, ?_⟩
    intro x hx hxk
    rw [List.mem_singleton] at hxk
    subst hxk
    exact hk hx

theorem keys_evictInactive_subset (m : DelayMap) :
    ∀ k, k ∈ (evictInactive m).map Prod.fst → k ∈ m.map Prod.fst := by
  intro k hk
  rcases List.mem_map.mp hk with ⟨p, hp, rfl⟩
  exact List.mem_map.mpr ⟨p, List.mem_of_mem_filter hp, rfl⟩

theorem lookupKey_evictInactive (m : DelayMap) (k : DelayCompKey) (hnd : keysNodup m) :
    lookupKey (evictInactive m) k =
      (lookupKey m k).bind (fun n => if n.active = true then some n else none) := by
  induction m with
  | nil => rfl
  | cons p rest ih =>
    obtain ⟨a, b⟩ := p
    have hnd2 := List.nodup_cons.mp hnd
    have ha : a ∉ rest.map Prod.fst := by simpa using hnd2.1
    have hndr : keysNodup rest := hnd2.2
    by_cases h : a = k
    · subst h
      cases hb : b.active
      · have hz : lookupKey (evictInactive rest) a = none := by
          rw [lookupKey_eq_none]
          exact fun hm => ha (keys_evictInactive_subset rest a hm)
        simp only [evictInactive] at hz
        simp [evictInactive, List.filter_cons, hb, lookupKey_cons, hz]
      · simp [evictInactive, List.filter_cons, hb, lookupKey_cons]
    · have ihh := ih hndr
      simp only [evictInactive] at ihh
      cases hb : b.active <;>
        simp [evictInactive, List.filter_cons, hb, lookupKey_cons, h, ihh]

theorem mapFor_setMap_self (pools : DelayCompNodePools) (pt : PortTypeIdx) (m : DelayMap) :
    (pools.setMap pt m).mapFor pt = m := by
  cases pt <;> rfl

theorem mapFor_setMap_other (pools : DelayCompNodePools) (pt pt2 : PortTypeIdx) (m : DelayMap)
    (h : pt2 ≠ pt) : (pools.setMap pt m).mapFor pt2 = pools.mapFor pt2 := by
  cases pt <;> cases pt2 <;> first | rfl | exact absurd rfl h

theorem delayTask_delayRef (ptype : PortTypeIdx) (key : DelayCompKey) (node : DelayCompNode)
    (bi bo : ℕ) : (delayTask ptype key node bi bo).delayRef = some (ptype, key, node) := by
  cases ptype <;> rfl

theorem construct_delay_eq (d : InsertedDelay) (pools : DelayCompNodePools)
    (h : 0 ≤ rustRound d.delay) :
    construct_delay_comp_task d (rustRound d.delay) pools =
      .ok (delayTask d.input_buffer.type_index d.cacheKey
             (touchOrInsert (pools.mapFor d.input_buffer.type_index) d.cacheKey
               d.cacheKey.delay).1
             d.input_buffer.buffer_index d.output_buffer.buffer_index,
           pools.setMap d.input_buffer.type_index
             (touchOrInsert (pools.mapFor d.input_buffer.type_index) d.cacheKey
               d.cacheKey.delay).2) := by
  unfold construct_delay_comp_task
  rw [if_neg (by omega)]
  cases hp : d.input_buffer.type_index <;>
    simp [hp, delayTask, InsertedDelay.cacheKey, DelayCompNodePools.setMap,
      DelayCompNodePools.mapFor]


theorem consTask_snd (t : Task)
    (r : (Except GraphCompilerError (List Task)) × DelayCompNodePools) :
    (consTask t r).2 = r.2 := by
  unfold consTask
  cases h : r.1 <;> rfl

theorem consTask_fst_of_ok (t : Task)
    (r : (Except GraphCompilerError (List Task)) × DelayCompNodePools)
    (ts : List Task) (h : r.1 = .ok ts) : (consTask t r).1 = .ok (t :: ts) := by
  unfold consTask
  rw [h]

theorem touchOrInsert_fst_eq_surviving (pools : DelayCompNodePools) (ptype : PortTypeIdx)
    (key : DelayCompKey) :
    (touchOrInsert (pools.mapFor ptype) key key.delay).1 = survivingNode pools ptype key := by
  rw [touchOrInsert_fst]
  unfold survivingNode
  cases h : lookupKey (pools.mapFor ptype) key <;> simp [h]

theorem touchOrInsert_fst_active (m : DelayMap) (k : DelayCompKey) (d : ℕ) :
    ((touchOrInsert m k d).1).active = true := by
  rw [touchOrInsert_fst]
  cases h : lookupKey m k <;> rfl

theorem active_update_self (n : DelayCompNode) (h : n.active = true) :
    ({ n with active := true } : DelayCompNode) = n := by
  cases n
  simp_all

theorem survivingNode_congr (pools pools2 : DelayCompNodePools) (ptype : PortTypeIdx)
    (key : DelayCompKey)
    (h : lookupKey (pools2.mapFor ptype) key = lookupKey (pools.mapFor ptype) key) :
    survivingNode pools2 ptype key = survivingNode pools ptype key := by
  unfold survivingNode
  rw [h]

theorem compileEntries_cache (gin gout : ℕ) (entries : List ScheduleEntry)
    (pools : DelayCompNodePools) (ptype : PortTypeIdx) (key : DelayCompKey)
    (hnn : allDelaysNonneg entries = true) :
    (∃ tasks, (compileEntries gin gout entries pools).1 = .ok tasks ∧
      (referencedBy entries ptype key = true →
        ∃ t, t ∈ tasks ∧ t.delayRef = some (ptype, key, survivingNode pools ptype key))) ∧
    lookupKey ((compileEntries gin gout entries pools).2.mapFor ptype) key =
      (if referencedBy entries ptype key = true then some (survivingNode pools ptype key)
       else lookupKey (pools.mapFor ptype) key) ∧
    (keysNodup (pools.mapFor ptype) →
      keysNodup ((compileEntries gin gout entries pools).2.mapFor ptype)) := by
  induction entries generalizing pools with
  | nil =>
    refine ⟨⟨[], rfl, ?_⟩, ?_, fun h => h⟩
    · intro h
      simp [referencedBy] at h
    · simp [referencedBy, compileEntries]
  | cons e rest ih =>
    have hnn2 : allDelaysNonneg rest = true := by
      rw [allDelaysNonneg, List.all_cons, Bool.and_eq_true] at hnn
      exact hnn.2
    cases e with
    | node id =>
      obtain ⟨t, ht⟩ := compileEntry_node_ok gin gout id pools
      have heq : compileEntries gin gout (.node id :: rest) pools =
          consTask t (compileEntries gin gout rest pools) := by
        rw [compileEntries, ht]
      have href : referencedBy (ScheduleEntry.node id :: rest) ptype key =
          referencedBy rest ptype key := by
        simp [referencedBy]
      obtain ⟨⟨tasks, htasks, hmem⟩, hlook, hnd⟩ := ih pools hnn2
      rw [heq, href]
      refine ⟨⟨t :: tasks, consTask_fst_of_ok t _ tasks htasks, ?_⟩, ?_, ?_⟩
      · intro hr
        obtain ⟨t2, ht2, hdr⟩ := hmem hr
        exact ⟨t2, List.mem_cons_of_mem t ht2, hdr⟩
      · rw [consTask_snd]
        exact hlook
      · rw [consTask_snd]
        exact hnd
    | sum =>
      have heq : compileEntries gin gout (.sum :: rest) pools =
          consTask .sum (compileEntries gin gout rest pools) := by
        rw [compileEntries]
        rfl
      have href : referencedBy (ScheduleEntry.sum :: rest) ptype key =
          referencedBy rest ptype key := by
        simp [referencedBy]
      obtain ⟨⟨tasks, htasks, hmem⟩, hlook, hnd⟩ := ih pools hnn2
      rw [heq, href]
      refine ⟨⟨.sum :: tasks, consTask_fst_of_ok _ _ tasks htasks, ?_⟩, ?_, ?_⟩
      · intro hr
        obtain ⟨t2, ht2, hdr⟩ := hmem hr
        exact ⟨t2, List.mem_cons_of_mem _ ht2, hdr⟩
      · rw [consTask_snd]
        exact hlook
      · rw [consTask_snd]
        exact hnd
    | delay d =>
      have hpos : 0 ≤ rustRound d.delay := by
        rw [allDelaysNonneg, List.all_cons, Bool.and_eq_true] at hnn
        simpa using hnn.1
      set dtype := d.input_buffer.type_index with hdtype
      set m2 := (touchOrInsert (pools.mapFor dtype) d.cacheKey d.cacheKey.delay).2 with hm2
      set n1 := (touchOrInsert (pools.mapFor dtype) d.cacheKey d.cacheKey.delay).1 with hn1
      set pools2 := pools.setMap dtype m2 with hpools2
      set tk := delayTask dtype d.cacheKey n1
        d.input_buffer.buffer_index d.output_buffer.buffer_index with htk
      have hce : compileEntry gin gout (.delay d) pools = .ok (tk, pools2) := by
        show construct_delay_comp_task d (rustRound d.delay) pools = _
        rw [construct_delay_eq d pools hpos]
      have heq : compileEntries gin gout (.delay d :: rest) pools =
          consTask tk (compileEntries gin gout rest pools2) := by
        rw [compileEntries, hce]
      have hcond : (referencedBy (ScheduleEntry.delay d :: rest) ptype key = true) ↔
          ((dtype = ptype ∧ d.cacheKey = key) ∨ referencedBy rest ptype key = true) := by
        rcases key with ⟨ke, kd⟩
        simp only [referencedBy, List.any_cons, Bool.or_eq_true, Bool.and_eq_true,
          decide_eq_true_eq, InsertedDelay.cacheKey, DelayCompKey.mk.injEq, ← hdtype]
        constructor
        · rintro (⟨⟨h1, h2⟩, h3⟩ | hr)
          · exact Or.inl ⟨h1, h2, by omega⟩
          · exact Or.inr hr
        · rintro (⟨h1, h2, h3⟩ | hr)
          · exact Or.inl ⟨⟨h1, h2⟩, by omega⟩
          · exact Or.inr hr
      obtain ⟨⟨tasks, htasks, hmem⟩, hlook, hndp⟩ := ih pools2 hnn2
      rw [heq]
      by_cases hP : dtype = ptype ∧ d.cacheKey = key
      · obtain ⟨hP1, hP2⟩ := hP
        have hmapself : pools2.mapFor ptype = m2 := by
          rw [hpools2, ← hP1]
          exact mapFor_setMap_self pools dtype m2
        have hself : lookupKey (pools2.mapFor ptype) key = some n1 := by
          rw [hmapself, ← hP2, hm2, hn1]
          exact touchOrInsert_lookup_self _ _ _
        have hn1surv : n1 = survivingNode pools ptype key := by
          rw [hn1, ← hP2, ← hP1]
          have := touchOrInsert_fst_eq_surviving pools dtype d.cacheKey
          simpa using this
        have hsurv2 : survivingNode pools2 ptype key = survivingNode pools ptype key := by
          unfold survivingNode
          rw [hself]
          simp only
          rw [active_update_self n1 (by rw [hn1]; exact touchOrInsert_fst_active _ _ _)]
          rw [hn1surv]
          unfold survivingNode
          rfl
        have hrefT : referencedBy (ScheduleEntry.delay d :: rest) ptype key = true :=
          hcond.mpr (Or.inl ⟨hP1, hP2⟩)
        rw [hrefT]
        refine ⟨⟨tk :: tasks, consTask_fst_of_ok _ _ tasks htasks, ?_⟩, ?_, ?_⟩
        · intro _
          refine ⟨tk, List.mem_cons_self _ _, ?_⟩
          rw [htk, delayTask_delayRef, hP1, hP2, hn1surv]
        · rw [consTask_snd, hlook]
          by_cases hre : referencedBy rest ptype key = true
          · simp [hre, hsurv2]
          · simp [hre, hself, hn1surv]
        · intro hndP
          rw [consTask_snd]
          apply hndp
          rw [hmapself, hm2]
          exact touchOrInsert_keysNodup _ _ _ (by rw [hP1]; exact hndP)
      · -- the head delay entry does not touch (ptype, key)
        have hlookEq : lookupKey (pools2.mapFor ptype) key =
            lookupKey (pools.mapFor ptype) key := by
          by_cases hpt : dtype = ptype
          · have hkne : key ≠ d.cacheKey := by
              intro hh
              exact hP ⟨hpt, hh.symm⟩
            rw [hpools2, ← hpt, mapFor_setMap_self, hm2, hpt]
            rw [← hpt]
            exact touchOrInsert_lookup_other _ _ _ _ hkne
          · rw [hpools2, mapFor_setMap_other pools dtype ptype m2 (fun hh => hpt hh.symm)]
        have hsurvEq : survivingNode pools2 ptype key = survivingNode pools ptype key :=
          survivingNode_congr pools pools2 ptype key hlookEq
        have hndEq : keysNodup (pools.mapFor ptype) → keysNodup (pools2.mapFor ptype) := by
          intro hndP
          by_cases hpt : dtype = ptype
          · rw [hpools2, ← hpt, mapFor_setMap_self, hm2]
            exact touchOrInsert_keysNodup _ _ _ (hpt ▸ hndP)
          · rw [hpools2, mapFor_setMap_other pools dtype ptype m2 (fun hh => hpt hh.symm)]
            exact hndP
        have hrefEq : referencedBy (ScheduleEntry.delay d :: rest) ptype key =
            referencedBy rest ptype key := by
          cases hre : referencedBy rest ptype key
          · cases hcons : referencedBy (ScheduleEntry.delay d :: rest) ptype key
            · rfl
            · rcases hcond.mp hcons with hl | hr
              · exact absurd hl hP
              · rw [hre] at hr
                exact absurd hr (by simp)
          · exact hcond.mpr (Or.inr hre)
        rw [hrefEq]
        refine ⟨⟨tk :: tasks, consTask_fst_of_ok _ _ tasks htasks, ?_⟩, ?_, ?_⟩
        · intro hr
          obtain ⟨t2, ht2, hdr⟩ := hmem hr
          refine ⟨t2, List.mem_cons_of_mem _ ht2, ?_⟩
          rw [hdr, hsurvEq]
        · rw [consTask_snd, hlook]
          by_cases hre : referencedBy rest ptype key = true
          · simp [hre, hsurvEq]
          · simp [hre, hlookEq]
        · intro hndP
          rw [consTask_snd]
          exact hndp (hndEq hndP)

theorem markPools_mapFor (pools : DelayCompNodePools) (ptype : PortTypeIdx) :
    (markPools pools).mapFor ptype = markAllInactive (pools.mapFor ptype) := by
  cases ptype <;> rfl

theorem survivingNode_markPools (pools : DelayCompNodePools) (ptype : PortTypeIdx)
    (key : DelayCompKey) :
    survivingNode (markPools pools) ptype key = survivingNode pools ptype key := by
  unfold survivingNode
  rw [markPools_mapFor, lookupKey_markAllInactive]
  cases h : lookupKey (pools.mapFor ptype) key <;> simp

theorem survivingNode_active (pools : DelayCompNodePools) (ptype : PortTypeIdx)
    (key : DelayCompKey) : (survivingNode pools ptype key).active = true := by
  unfold survivingNode
  cases h : lookupKey (pools.mapFor ptype) key <;> rfl

theorem compile_graph_snd_of_ok (pools : DelayCompNodePools) (gin gout : ℕ)
    (sched : List ScheduleEntry) (tasks : List Task) (ptype : PortTypeIdx)
    (h : (compileEntries gin gout sched (markPools pools)).1 = .ok tasks) :
    (compile_graph pools gin gout sched).2.mapFor ptype =
      evictInactive ((compileEntries gin gout sched (markPools pools)).2.mapFor ptype) := by
  simp only [compile_graph]
  cases hfst : (compileEntries gin gout sched (markPools pools)).1 with
  | error er =>
    rw [hfst] at h
    exact absurd h (by simp)
  | ok ts =>
    by_cases hv : verify_schedule ts = true <;> simp [hv] <;> cases ptype <;> rfl

/-- C4: across a compile, a delay-comp cache entry that no `Delay` entry
of the new abstract schedule references is absent from the cache when the
compile's sweep completes; a referenced entry survives marked active with
its ring state intact (the same node instance: if the key was cached
before the compile, the surviving node is the old node re-marked active),
and that very node is referenced by a delay task in the new task list. -/
theorem claim_C4 (pools : DelayCompNodePools) (gin gout : ℕ) (sched : List ScheduleEntry)
    (ptype : PortTypeIdx) (key : DelayCompKey)
    (hnn : allDelaysNonneg sched = true)
    (hnd : keysNodup (pools.mapFor ptype)) :
    (referencedBy sched ptype key = false →
      lookupKey ((compile_graph pools gin gout sched).2.mapFor ptype) key = none) ∧
    (referencedBy sched ptype key = true →
      lookupKey ((compile_graph pools gin gout sched).2.mapFor ptype) key =
        some (survivingNode pools ptype key) ∧
      (survivingNode pools ptype key).active = true ∧
      (∀ n, lookupKey (pools.mapFor ptype) key = some n →
        survivingNode pools ptype key = { n with active := true }) ∧
      (∃ tasks t, (compileEntries gin gout sched (markPools pools)).1 = .ok tasks ∧
        t ∈ tasks ∧ t.delayRef = some (ptype, key, survivingNode pools ptype key))) := by
  have hndm : keysNodup ((markPools pools).mapFor ptype) := by
    rw [markPools_mapFor]
    show ((markAllInactive (pools.mapFor ptype)).map Prod.fst).Nodup
    rw [keys_markAllInactive]
    exact hnd
  obtain ⟨⟨tasks, htasks, hmem⟩, hlook, hndloop⟩ :=
    compileEntries_cache gin gout sched (markPools pools) ptype key hnn
  have hsnd := compile_graph_snd_of_ok pools gin gout sched tasks ptype htasks
  have hevict := lookupKey_evictInactive
    ((compileEntries gin gout sched (markPools pools)).2.mapFor ptype) key (hndloop hndm)
  constructor
  · intro hrf
    rw [hsnd, hevict, hlook, hrf]
    simp only [Bool.false_eq_true, if_false]
    rw [markPools_mapFor, lookupKey_markAllInactive]
    cases h : lookupKey (pools.mapFor ptype) key <;> simp
  · intro hrt
    refine ⟨?_, survivingNode_active pools ptype key, ?_, ?_⟩
    · rw [hsnd, hevict, hlook, hrt]
      simp [survivingNode_markPools, survivingNode_active]
    · intro n hn
      unfold survivingNode
      rw [hn]
    · obtain ⟨t, ht, hdr⟩ := hmem hrt
      rw [survivingNode_markPools] at hdr
      exact ⟨tasks, t, htasks, ht, hdr⟩


/-- Witness for C4: compiling a schedule that still uses the delay node on
edge 3 keeps that node (ring state 42 intact, active) and evicts the
unreferenced node on edge 9. -/
theorem claim_C4_witness :
    lookupKey ((compile_graph poolsWithNodes 100 101 schedDelay128).2.mapFor .audio)
        { edge := 3, delay := 128 } =
      some (survivingNode poolsWithNodes .audio { edge := 3, delay := 128 }) ∧
    lookupKey ((compile_graph poolsWithNodes 100 101 schedDelay128).2.mapFor .audio)
        { edge := 9, delay := 7 } = none :=
  ⟨((claim_C4 poolsWithNodes 100 101 schedDelay128 .audio { edge := 3, delay := 128 }
      (by decide) (by unfold keysNodup; decide)).2 (by decide)).1,
   (claim_C4 poolsWithNodes 100 101 schedDelay128 .audio { edge := 9, delay := 7 }
      (by decide) (by unfold keysNodup; decide)).1 (by decide)⟩

end RustyDaw
